import Mathlib

/-!
# Verification of the Bullview structure-reconciliation core

Shallow embedding of the Bullview codebase (topology/configuration file
parsing, topology-configuration combination, and the periodic-boundary
display logic of the renderer) together with proofs and refutations of the
specification claims.

Modelling conventions:
* JavaScript numbers are idealised as exact rationals (`ℚ`); integer-valued
  fields are `ℤ`/`ℕ`.  Floating-point rounding is out of scope — the spec
  itself states the wrapping properties over the reals.
* The one place where IEEE `NaN` changes control flow relevant to a claim is
  the remainder operator `%` with divisor `0` (used by the renderer's `wrap`
  helper).  `NaN` is modelled there by `Option ℚ` with `none` standing for
  `NaN`.
* `parseInt`/`parseFloat`/`Number` conversions return `NaN` (or leave a slot
  `undefined`) on malformed tokens.  None of the claims under verification
  inspects the numeric value obtained from a malformed token, so those
  conversions are modelled as total functions defaulting to `0`; the comment
  at each site records the JS behaviour.
* String manipulation (`split`, `trim`, `startsWith`) is implemented over
  `List Char` by structural recursion so that every concrete instance can be
  evaluated by `decide`/`rfl`.
-/

/-- A 3-component vector of (idealised) JS numbers, `BABYLON.Vector3` resp.
the plain `{x, y, z}` records of the parsers. -/
structure Vec3 where
  x : ℚ
  y : ℚ
  z : ℚ
deriving DecidableEq

/-- A 3-component vector whose components may be `NaN` (modelled `none`);
the renderer writes `wrap` results — possibly `NaN` — into the displayed
instance positions. -/
structure OVec3 where
  x : Option ℚ
  y : Option ℚ
  z : Option ℚ
deriving DecidableEq

/-- Truncation toward zero, the rounding used by the JS `%` operator
(`a % b = a - b * trunc(a / b)` for finite operands, `b ≠ 0`). -/
def truncQ (q : ℚ) : ℤ := if 0 ≤ q then ⌊q⌋ else ⌈q⌉

/-- The JS remainder operator `val % max` on (idealised) numbers:
division by `0` yields `NaN`, modelled as `none`. -/
def jsRem (val max : ℚ) : Option ℚ :=
  if max = 0 then none else some (val - max * (truncQ (val / max) : ℚ))

/-- The renderer's wrapping helper (src/unnamed/part_000, lines 459-463):
```
const wrap = (val, max) => {
    let res = val % max;
    if (res < 0) res += max;
    return res;
};
```
With `max = 0` the remainder is `NaN`; `NaN < 0` is `false`, so `NaN` is
returned unchanged (the `none` branch below). -/
def wrap (val max : ℚ) : Option ℚ :=
  match jsRem val max with
  | none => none
  | some res => some (if res < 0 then res + max else res)

/-! ## Character-list implementations of the JS string operations -/

/-- `s.split(sep)` for a single-character separator, on the character list of
the string.  Like the JS method it always returns at least one (possibly
empty) piece. -/
def splitOnChar (sep : Char) : List Char → List (List Char)
  | [] => [[]]
  | c :: rest =>
    let r := splitOnChar sep rest
    if c = sep then [] :: r
    else
      match r with
      | [] => [[c]]
      | t :: ts => (c :: t) :: ts

/-- `line.split(/\s+/)` on an already-trimmed line: whitespace runs separate
tokens, and no empty tokens are produced. -/
def tokensOf (l : List Char) : List (List Char) :=
  (splitOnChar ' ' (l.map fun c => if c.isWhitespace then ' ' else c)).filter
    (fun t => t ≠ [])

/-- `String.prototype.trim`: strip leading and trailing whitespace. -/
def trimChars (l : List Char) : List Char :=
  ((l.dropWhile Char.isWhitespace).reverse.dropWhile Char.isWhitespace).reverse

/-- `a.startsWith(p)` on character lists. -/
def charsStartWith : List Char → List Char → Bool
  | [], _ => true
  | _ :: _, [] => false
  | p :: ps, c :: cs => p = c && charsStartWith ps cs

/-- `content.split('\n').map(line => line.trim())`, the first step of both
parsers. -/
def jsLines (content : String) : List (List Char) :=
  (splitOnChar '\n' content.data).map trimChars

/-- A line that is neither blank (falsy after trimming) nor a `#` comment:
the JS test `line && !line.startsWith('#')` on a trimmed line. -/
def significant (l : List Char) : Bool :=
  l ≠ [] && !charsStartWith ['#'] l

/-- Value of a leading digit run. -/
def digitsVal (ds : List Char) : ℕ :=
  ds.foldl (fun a c => a * 10 + (c.toNat - 48)) 0

/-- `parseInt(token)`: optional sign, then a leading run of decimal digits;
`none` models `NaN` (no digits at all).  Trailing garbage is ignored, as in
JS.  (Radix prefixes and whitespace skipping never arise on the tokenised,
trimmed input.) -/
def jsParseInt (t : List Char) : Option ℤ :=
  let (sign, rest) : ℤ × List Char :=
    match t with
    | '-' :: r => (-1, r)
    | '+' :: r => (1, r)
    | r => (1, r)
  let ds := rest.takeWhile Char.isDigit
  if ds = [] then none else some (sign * (digitsVal ds : ℤ))

/-- `parseFloat(token)` (also standing in for `Number(token)` on the header
tokens): optional sign, integer digits, optional `.` and fraction digits;
`none` models `NaN`.  Exponent notation is not modelled — no claim inspects
the numeric value of a token, and every concrete input used below is a plain
decimal. -/
def jsParseFloat (t : List Char) : Option ℚ :=
  let (sign, rest) : ℚ × List Char :=
    match t with
    | '-' :: r => (-1, r)
    | '+' :: r => (1, r)
    | r => (1, r)
  let intDs := rest.takeWhile Char.isDigit
  let rest2 := rest.dropWhile Char.isDigit
  let fracDs : List Char :=
    match rest2 with
    | '.' :: r => r.takeWhile Char.isDigit
    | _ => []
  if intDs = [] && fracDs = [] then none
  else some (sign * ((digitsVal intDs : ℚ) +
    (digitsVal fracDs : ℚ) / ((10 : ℚ) ^ fracDs.length)))

/-- Read token `i` of a tokenised line as an integer.  JS stores `NaN` when
the token is malformed or missing (`parseInt(undefined)`); no claim inspects
such a value, and it is modelled by the default `0`. -/
def intAt (tokens : List (List Char)) (i : ℕ) : ℤ :=
  ((tokens.get? i).bind jsParseInt).getD 0

/-- Read token `i` of a tokenised line as a float, with the same `NaN`
modelling as `intAt`. -/
def floatAt (tokens : List (List Char)) (i : ℕ) : ℚ :=
  ((tokens.get? i).bind jsParseFloat).getD 0

example : jsParseInt "12".data = some 12 := by decide
example : jsParseInt "-1".data = some (-1) := by decide
example : tokensOf "a  bc d".data = ["a".data, "bc".data, "d".data] := by decide
example : trimChars "  x y  ".data = "x y".data := by decide
example : jsLines "t = 5\nb = 1" = ["t = 5".data, "b = 1".data] := by decide
example : wrap 1 0 = none := by decide
example : wrap (-3) 10 = some 7 := by
  have h : truncQ (-(3 / 10) : ℚ) = 0 := by norm_num [truncQ]
  norm_num [wrap, jsRem, h]
example : wrap 23 10 = some 3 := by
  have h : truncQ ((23 : ℚ) / 10) = 2 := by norm_num [truncQ]
  norm_num [wrap, jsRem, h]

/-! ## Data model (document types produced by the parsers, src/unnamed/part_002) -/

/-- Patch template row `iP id color strength x y z`. -/
structure PatchTemplate where
  id : ℤ
  color : ℤ
  strength : ℚ
  position : Vec3
deriving DecidableEq

/-- Spring template row `iS id stiffness restLength x y z`. -/
structure SpringTemplate where
  id : ℤ
  stiffness : ℚ
  restLength : ℚ
  position : Vec3
deriving DecidableEq

/-- One `(peerIndex, springId)` connection pair of a topology particle row.
Source field names: `particleIndex`, `springIndex`. -/
structure Connection where
  particleIndex : ℤ
  springIndex : ℤ
deriving DecidableEq

/-- Per-particle record of the topology document.  `index` is positional
(`topology.particles.length` at push time). -/
structure ParticleRecord where
  index : ℕ
  type : ℤ
  strand : ℤ
  radius : ℚ
  mass : ℚ
  patches : List ℤ
  connections : List Connection
deriving DecidableEq

/-- The four header numbers of a topology file (parsed with `Number`, hence
JS floats). -/
structure TopoHeader where
  numParticles : ℚ
  numStrands : ℚ
  maxSpringsPerParticle : ℚ
  repeatedPatchesPerParticle : ℚ
deriving DecidableEq

/-- `TopologyParser.parse` output. -/
structure TopologyDocument where
  header : TopoHeader
  patches : List PatchTemplate
  springs : List SpringTemplate
  particles : List ParticleRecord
deriving DecidableEq

/-- Per-nucleotide state row of the configuration document (15 floats). -/
structure NucleotideState where
  index : ℕ
  position : Vec3
  baseVector : Vec3
  normalVector : Vec3
  velocity : Vec3
  angularVelocity : Vec3
deriving DecidableEq

/-- The `E =` header line values. -/
structure Energy where
  total : ℚ
  potential : ℚ
  kinetic : ℚ
deriving DecidableEq

/-- `ConfigurationParser.parse` output. -/
structure ConfigurationDocument where
  timestep : ℤ
  box : Vec3
  energy : Energy
  nucleotides : List NucleotideState
deriving DecidableEq

/-- A merged particle (`DataCombiner.combine`). -/
structure Particle where
  index : ℕ
  type : ℤ
  strand : ℤ
  radius : ℚ
  mass : ℚ
  patches : List PatchTemplate
  connections : List Connection
  position : Vec3
  baseVector : Vec3
  normalVector : Vec3
  velocity : Vec3
  angularVelocity : Vec3
deriving DecidableEq

/-- A derived bond.  Source fields are `from`/`to` (`from` is a Lean
keyword, hence `fromIdx`/`toIdx`); `spring` is `null` when the spring id
did not resolve. -/
structure Bond where
  fromIdx : ℤ
  toIdx : ℤ
  spring : Option SpringTemplate
deriving DecidableEq

/-- Combined-structure metadata, copied through from the two documents. -/
structure Metadata where
  timestep : ℤ
  box : Vec3
  energy : Energy
  numStrands : ℚ
deriving DecidableEq

/-- `DataCombiner.combine` output: the structure graph. -/
structure StructureGraph where
  particles : List Particle
  bonds : List Bond
  metadata : Metadata
deriving DecidableEq

/-! ## DataCombiner (src/unnamed/part_002, lines 554-644) -/

/-- Merge topology record `tp` with nucleotide `nuc` at positional index
`i`.  Patch ids are resolved against the patch-template list by `id`
(`topology.patches.find(p => p.id === patchId)`); unresolved ids are
dropped (`.filter(p => p !== null)`). -/
def mergeAt (topology : TopologyDocument) (i : ℕ) (tp : ParticleRecord)
    (nuc : NucleotideState) : Particle :=
  { index := i
    type := tp.type
    strand := tp.strand
    radius := tp.radius
    mass := tp.mass
    patches := tp.patches.filterMap
      (fun patchId => topology.patches.find? (fun p => p.id == patchId))
    connections := tp.connections
    position := nuc.position
    baseVector := nuc.baseVector
    normalVector := nuc.normalVector
    velocity := nuc.velocity
    angularVelocity := nuc.angularVelocity }

/-- The merged particle list: the loop `for (let i = 0; i < count; i++)`
with `count = Math.min(topology.particles.length,
configuration.nucleotides.length)` — `zip` truncates to exactly that
common prefix. -/
def mergedParticles (topology : TopologyDocument)
    (configuration : ConfigurationDocument) : List Particle :=
  ((topology.particles.zip configuration.nucleotides).enum).map
    (fun p => mergeAt topology p.1 p.2.1 p.2.2)

/-- The bond-derivation loop: for each particle (in list order) and each
declared connection (in declaration order), skip if an existing bond
matches the unordered pair, else — provided `peerIndex <
particles.length` — append a bond with the spring template resolved by
id. -/
def combineBonds (topology : TopologyDocument)
    (particles : List Particle) : List Bond :=
  particles.foldl (fun bonds particle =>
    particle.connections.foldl (fun bonds connection =>
      let existingBond := bonds.find? (fun b =>
        (b.fromIdx == (particle.index : ℤ) && b.toIdx == connection.particleIndex) ||
        (b.fromIdx == connection.particleIndex && b.toIdx == (particle.index : ℤ)))
      if existingBond.isNone && connection.particleIndex < (particles.length : ℤ) then
        bonds ++ [{ fromIdx := (particle.index : ℤ)
                    toIdx := connection.particleIndex
                    spring := topology.springs.find?
                      (fun s => s.id == connection.springIndex) }]
      else bonds) bonds) []

/-- `DataCombiner.combine`. -/
def combine (topology : TopologyDocument)
    (configuration : ConfigurationDocument) : StructureGraph :=
  let particles := mergedParticles topology configuration
  { particles := particles
    bonds := combineBonds topology particles
    metadata :=
      { timestep := configuration.timestep
        box := configuration.box
        energy := configuration.energy
        numStrands := topology.header.numStrands } }

/-! ## Renderer PBC state (src/unnamed/part_000) -/

/-- The shift axis argument (`'x' | 'y' | 'z'`). -/
inductive Axis where
  | x
  | y
  | z
deriving DecidableEq

/-- The renderer state relevant to the PBC claims: the loaded structure
graph (`this.data`), the canonical-position snapshot
(`this.originalParticlePositions`), the accumulated offset
(`this.boxOffset`) and the displayed instance positions
(`instance.position` of the nucleotide instances). -/
structure RenderState where
  data : StructureGraph
  originalParticlePositions : List Vec3
  boxOffset : Vec3
  displayed : List OVec3
deriving DecidableEq

/-- `DNARenderer.loadData` (part_000, lines 134-166): resets `boxOffset`
to the zero vector, snapshots `originalParticlePositions` as clones of the
particle positions, and gives every instance a clone of its particle
position (no wrapping at load time).

Instance-order note: `renderNucleotides` pushes the instances grouped by
strand, so with interleaved strands the instance list is a permutation of
the particle list.  The claims verified below never depend on the
load-time instance order (every concrete structure used has one strand,
for which the grouped order is the particle order), so the model keeps
particle order. -/
def loadData (combinedData : StructureGraph) : RenderState :=
  { data := combinedData
    boxOffset := ⟨0, 0, 0⟩
    originalParticlePositions := combinedData.particles.map (fun p => p.position)
    displayed := combinedData.particles.map
      (fun p => ⟨some p.position.x, some p.position.y, some p.position.z⟩) }

/-- `DNARenderer.updateParticlePositions` (part_000, lines 453-532):
every instance `i` gets position `wrap(originalPos[i] + boxOffset, box)`
per axis; the bond line system is then rebuilt from these same instance
positions, so bond endpoints always equal the displayed particle
positions and need no separate state. -/
def updateParticlePositions (st : RenderState) : RenderState :=
  let box := st.data.metadata.box
  { st with
    displayed := st.originalParticlePositions.map (fun originalPos =>
      { x := wrap (originalPos.x + st.boxOffset.x) box.x
        y := wrap (originalPos.y + st.boxOffset.y) box.y
        z := wrap (originalPos.z + st.boxOffset.z) box.z }) }

/-- `offset[axis] += amount`. -/
def bumpOffset (v : Vec3) (axis : Axis) (amount : ℚ) : Vec3 :=
  match axis with
  | .x => { v with x := v.x + amount }
  | .y => { v with y := v.y + amount }
  | .z => { v with z := v.z + amount }

/-- `DNARenderer.shiftParticles` (part_000, lines 440-448): bump the
offset on the given axis, then recompute all displayed positions.  The
`!this.data || !this.data.metadata.box` early return cannot fire in the
model: a `RenderState` always carries a graph whose metadata has a box
record. -/
def shiftParticles (st : RenderState) (axis : Axis) (amount : ℚ) : RenderState :=
  updateParticlePositions { st with boxOffset := bumpOffset st.boxOffset axis amount }

/-! ## TopologyParser (src/unnamed/part_002, lines 377-488) -/

/-- The header line: `line.split(/\s+/).map(Number)`, fields taken
positionally (missing tokens give `NaN`, modelled `0` by `floatAt`). -/
def parseTopoHeaderLine (l : List Char) : TopoHeader :=
  let parts := tokensOf l
  { numParticles := floatAt parts 0
    numStrands := floatAt parts 1
    maxSpringsPerParticle := floatAt parts 2
    repeatedPatchesPerParticle := floatAt parts 3 }

/-- The first `while` loop of `TopologyParser.parse`: skip lines until the
first significant one (the header); return it together with the remaining
lines.  `none` when every line is blank or a comment. -/
def findHeaderLine : List (List Char) → Option (List Char × List (List Char))
  | [] => none
  | l :: rest => if significant l then some (l, rest) else findHeaderLine rest

/-- Consume the remaining tokens in `(peerIndex, springId)` pairs; a
dangling odd final token is discarded (`if (idx + 1 < parts.length) ...
else break`). -/
def chunkPairs {α : Type} : List α → List (α × α)
  | a :: b :: rest => (a, b) :: chunkPairs rest
  | _ => []

/-- One iteration of the second loop of `TopologyParser.parse`: dispatch a
significant line on its first token (`iP` patch row, `iS` spring row,
otherwise particle row).  Particle rows read `numPatches` patch-id tokens
after the five fixed fields and then pair up the rest as connections;
out-of-range reads are `parseInt(undefined) = NaN`, modelled `0` (no
claim inspects those values). -/
def topoBodyStep (doc : TopologyDocument) (line : List Char) : TopologyDocument :=
  if significant line then
    let parts := tokensOf line
    if parts.get? 0 == some "iP".data then
      { doc with patches := doc.patches ++
          [{ id := intAt parts 1
             color := intAt parts 2
             strength := floatAt parts 3
             position := ⟨floatAt parts 4, floatAt parts 5, floatAt parts 6⟩ }] }
    else if parts.get? 0 == some "iS".data then
      { doc with springs := doc.springs ++
          [{ id := intAt parts 1
             stiffness := floatAt parts 2
             restLength := floatAt parts 3
             position := ⟨floatAt parts 4, floatAt parts 5, floatAt parts 6⟩ }] }
    else
      let numPatches := (intAt parts 4).toNat
      let particlePatches := (List.range numPatches).map (fun i => intAt parts (5 + i))
      let particleConnections := (chunkPairs (parts.drop (5 + numPatches))).map
        (fun pr => { particleIndex := (jsParseInt pr.1).getD 0
                     springIndex := (jsParseInt pr.2).getD 0 : Connection })
      { doc with particles := doc.particles ++
          [{ index := doc.particles.length
             type := intAt parts 0
             strand := intAt parts 1
             radius := floatAt parts 2
             mass := floatAt parts 3
             patches := particlePatches
             connections := particleConnections }] }
  else doc

/-- `TopologyParser.parse`: find the header among the significant lines —
`throw new Error('Invalid topology file: no header found')` when there is
none — then fold the body dispatch over the remaining lines.  (In the
source, `numPatches = parseInt(parts[4])` being `NaN` or negative makes
the patch-id loop run zero times, which `(intAt parts 4).toNat = 0`
reproduces.) -/
def topoParse (content : String) : Except String TopologyDocument :=
  match findHeaderLine (jsLines content) with
  | none => .error "Invalid topology file: no header found"
  | some (headerLine, rest) =>
    .ok (rest.foldl topoBodyStep
      { header := parseTopoHeaderLine headerLine
        patches := []
        springs := []
        particles := [] })

/-! ## ConfigurationParser (src/unnamed/part_002, lines 493-545) -/

/-- `line.split('=')[1]`: the text after the first `=`.  On every line the
source applies this to, the `startsWith` guard has already ensured an `=`
is present, so index 1 exists; the `[]` default is never taken. -/
def splitEq (l : List Char) : List Char := ((splitOnChar '=' l).get? 1).getD []

/-- `line.split('=')[1].trim().split(/\s+/).map(parseFloat)` — the value
tokens of a `b =` or `E =` header line. -/
def confHeaderVals (l : List Char) : List (Option ℚ) :=
  (tokensOf (trimChars (splitEq l))).map jsParseFloat

/-- Entry `i` of a `.map(parseFloat)` result: a missing entry is
`undefined`, a malformed token `NaN`; neither value is inspected by any
claim, both are modelled `0`. -/
def qAt (parts : List (Option ℚ)) (i : ℕ) : ℚ := ((parts.get? i).bind id).getD 0

/-- One iteration of the nucleotide-data loop: a significant line is
tokenised into floats and contributes a nucleotide state — with positional
index `nucleotides.length` — exactly when it has at least 15 fields;
shorter lines are skipped. -/
def confRowStep (acc : List NucleotideState) (line : List Char) : List NucleotideState :=
  if significant line then
    let parts := (tokensOf line).map jsParseFloat
    if parts.length ≥ 15 then
      acc ++ [{ index := acc.length
                position := ⟨qAt parts 0, qAt parts 1, qAt parts 2⟩
                baseVector := ⟨qAt parts 3, qAt parts 4, qAt parts 5⟩
                normalVector := ⟨qAt parts 6, qAt parts 7, qAt parts 8⟩
                velocity := ⟨qAt parts 9, qAt parts 10, qAt parts 11⟩
                angularVelocity := ⟨qAt parts 12, qAt parts 13, qAt parts 14⟩ }]
    else acc
  else acc

/-- The exception raised by reading `lines[currentLine].startsWith(...)`
when `currentLine` has run past the end of the line array
(`lines[currentLine]` is `undefined`). -/
def undefinedLineMsg : String := "TypeError: lines[currentLine] is undefined"

/-- `ConfigurationParser.parse`.  Each of the three header checks reads
`lines[currentLine].startsWith(...)` WITHOUT first checking
`currentLine < lines.length`; when a previous header line consumed the
last array entry this dereferences `undefined` and throws, modelled by the
`.error` branches.  (The check for `t =` is at index 0 and `split('\n')`
always returns at least one entry, so the first `.error` branch is
unreachable; it is kept to mirror the unguarded access.)  Absent header
lines leave the defaults — timestep `0`, box and energies zero — and do
not advance the cursor. -/
def confParse (content : String) : Except String ConfigurationDocument :=
  let lines := jsLines content
  match lines.get? 0 with
  | none => .error undefinedLineMsg
  | some l0 =>
    let (timestep, c1) : ℤ × ℕ :=
      if charsStartWith "t =".data l0 then
        ((jsParseInt (trimChars (splitEq l0))).getD 0, 1)
      else (0, 0)
    match lines.get? c1 with
    | none => .error undefinedLineMsg
    | some l1 =>
      let (box, c2) : Vec3 × ℕ :=
        if charsStartWith "b =".data l1 then
          (let parts := confHeaderVals l1
           (⟨qAt parts 0, qAt parts 1, qAt parts 2⟩, c1 + 1))
        else (⟨0, 0, 0⟩, c1)
      match lines.get? c2 with
      | none => .error undefinedLineMsg
      | some l2 =>
        let (energy, c3) : Energy × ℕ :=
          if charsStartWith "E =".data l2 then
            (let parts := confHeaderVals l2
             (⟨qAt parts 0, qAt parts 1, qAt parts 2⟩, c2 + 1))
          else (⟨0, 0, 0⟩, c2)
        .ok { timestep := timestep
              box := box
              energy := energy
              nucleotides := (lines.drop c3).foldl confRowStep [] }

/-! ## Shared helpers for the claims -/

/-- The unordered endpoint pair of a bond, as a (min, max) key. -/
def edgeKey (b : Bond) : ℤ × ℤ := (min b.fromIdx b.toIdx, max b.fromIdx b.toIdx)

/-- The dedup predicate of the bond loop
(`(b.from === a && b.to === c) || (b.from === c && b.to === a)`) as a
relation between two bonds. -/
def sameUnorderedEdge (b1 b2 : Bond) : Bool :=
  (b1.fromIdx == b2.fromIdx && b1.toIdx == b2.toIdx) ||
  (b1.fromIdx == b2.toIdx && b1.toIdx == b2.fromIdx)

theorem sameUnorderedEdge_iff_key (b1 b2 : Bond) :
    sameUnorderedEdge b1 b2 = true ↔ edgeKey b1 = edgeKey b2 := by
  simp only [sameUnorderedEdge, edgeKey, Bool.or_eq_true, Bool.and_eq_true, beq_iff_eq,
    Prod.mk.injEq]
  constructor
  · rintro (⟨h1, h2⟩ | ⟨h1, h2⟩) <;> rw [h1, h2] <;> constructor <;>
      first
        | exact min_comm _ _
        | exact max_comm _ _
        | rfl
  · rintro ⟨h1, h2⟩
    omega

theorem sameUnorderedEdge_self (b : Bond) : sameUnorderedEdge b b = true := by
  simp [sameUnorderedEdge]

/-- A zero vector, used by the concrete documents below. -/
def vzero : Vec3 := ⟨0, 0, 0⟩

/-- An all-zero nucleotide row with positional index `i`. -/
def nucZero (i : ℕ) : NucleotideState := ⟨i, vzero, vzero, vzero, vzero, vzero⟩

/-! ## C1 -/

/-- C1: the spec claims `wrap(v, 0) == v` (pass-through for a degenerate
box axis).  The code computes `v % 0`, which is `NaN` in JS; `NaN < 0` is
false, so `wrap` returns `NaN` (modelled `none`), not `v`: at `v = 1`,
`wrap 1 0` is `NaN` rather than `1`. -/
theorem wrap_box_zero_gives_nan : wrap 1 0 = none ∧ wrap 1 0 ≠ some 1 := by
  decide

/-! ## C2 -/

/-- Topology document for C2: one particle declaring a connection to peer
index `-1` (the "blank neighbour" marker of the repository README). -/
def topoNegPeer : TopologyDocument :=
  { header := ⟨1, 1, 1, 1⟩
    patches := []
    springs := []
    particles := [{ index := 0, type := 0, strand := 0, radius := 1, mass := 1,
                    patches := [], connections := [⟨-1, 0⟩] }] }

/-- Configuration document for C2: a single all-zero nucleotide, box
`10 × 10 × 10`. -/
def confOneNuc : ConfigurationDocument :=
  { timestep := 0, box := ⟨10, 10, 10⟩, energy := ⟨0, 0, 0⟩,
    nucleotides := [nucZero 0] }

/-- C2: the spec claims every bond of `combine` satisfies
`0 <= from < count` and `0 <= to < count`, and that a connection whose
`peerIndex` is not a valid merged index contributes no bond.  The guard in
the source is only `connection.particleIndex < particles.length` — there
is no lower bound — so the declared peer `-1` of `topoNegPeer` produces
the dangling bond `{from: 0, to: -1}` even though the merged particle
count is `1`. -/
theorem combine_bond_negative_peer :
    (combine topoNegPeer confOneNuc).bonds = [{ fromIdx := 0, toIdx := -1, spring := none }] ∧
    (combine topoNegPeer confOneNuc).particles.length = 1 := by
  decide

/-! ## C3 -/

/-- C3: the spec claims `ConfigurationParser.parse` returns a document for
every input string, never raising.  The header checks dereference
`lines[currentLine]` without a bounds check, so the well-formed one-line
file `t = 5` (no trailing newline) crashes: after the `t =` line is
consumed, `lines[1]` is `undefined` and `.startsWith('b =')` throws a
`TypeError`. -/
theorem confParse_throws_at_header_eof :
    confParse "t = 5" = .error undefinedLineMsg := by
  rfl

/-! ## C5 -/

/-- C5: `combine` produces exactly
`min topology.particles.length configuration.nucleotides.length`
particles, `particles[i].index == i` for every `i` (stated as: the indices
read off in order are `0, 1, ..., count-1`), and when that minimum is `0`
the particle and bond lists are both empty (and no error is possible — the
model is a total function). -/
theorem combine_count_and_indices (topology : TopologyDocument)
    (configuration : ConfigurationDocument) :
    (combine topology configuration).particles.length =
        min topology.particles.length configuration.nucleotides.length ∧
    (combine topology configuration).particles.map Particle.index =
        List.range (min topology.particles.length configuration.nucleotides.length) ∧
    (min topology.particles.length configuration.nucleotides.length = 0 →
      (combine topology configuration).particles = [] ∧
      (combine topology configuration).bonds = []) := by
  refine ⟨?_, ?_, ?_⟩
  · simp [combine, mergedParticles, List.enum_length, List.length_zip]
  · have h1 : (mergedParticles topology configuration).map Particle.index =
        ((topology.particles.zip configuration.nucleotides).enum).map Prod.fst := by
      simp only [mergedParticles, List.map_map]
      rfl
    have h2 : (combine topology configuration).particles.map Particle.index =
        List.range ((topology.particles.zip configuration.nucleotides).length) := by
      show (mergedParticles topology configuration).map Particle.index = _
      rw [h1, List.enum_map_fst]
    rw [h2, List.length_zip]
  · intro h0
    have hp : mergedParticles topology configuration = [] := by
      have hlen : (mergedParticles topology configuration).length = 0 := by
        simp [mergedParticles, List.enum_length, List.length_zip, h0]
      exact List.length_eq_zero.mp hlen
    constructor
    · show mergedParticles topology configuration = []
      exact hp
    · show combineBonds topology (mergedParticles topology configuration) = []
      rw [hp]
      rfl

/-- Topology document for the C5 witness: one particle but no overlapping
nucleotide. -/
def topoOneParticle : TopologyDocument :=
  { header := ⟨1, 1, 1, 1⟩
    patches := []
    springs := []
    particles := [{ index := 0, type := 0, strand := 0, radius := 1, mass := 1,
                    patches := [], connections := [] }] }

/-- Configuration document for the C5 witness: no nucleotides. -/
def confNoNuc : ConfigurationDocument :=
  { timestep := 0, box := ⟨10, 10, 10⟩, energy := ⟨0, 0, 0⟩, nucleotides := [] }

/-- Witness for C5 at `count = 0`: one topology particle, zero
nucleotides. -/
theorem combine_count_and_indices_witness :
    (combine topoOneParticle confNoNuc).particles = [] ∧
    (combine topoOneParticle confNoNuc).bonds = [] :=
  (combine_count_and_indices topoOneParticle confNoNuc).2.2 (by decide)

/-! ## C9 -/

/-- A sequence of user shift operations applied in order. -/
def applyShifts (ops : List (Axis × ℚ)) (st : RenderState) : RenderState :=
  ops.foldl (fun s op => shiftParticles s op.1 op.2) st

theorem applyShifts_frame (ops : List (Axis × ℚ)) :
    ∀ st : RenderState,
      (applyShifts ops st).data = st.data ∧
      (applyShifts ops st).originalParticlePositions = st.originalParticlePositions := by
  induction ops with
  | nil => exact fun st => ⟨rfl, rfl⟩
  | cons op rest ih =>
    intro st
    have h := ih (shiftParticles st op.1 op.2)
    simpa [applyShifts, shiftParticles, updateParticlePositions] using h

/-- C9: after any sequence of shift operations following a load, the
structure graph (`this.data`) and the canonical-position snapshot
(`this.originalParticlePositions`) still equal their load-time values —
shifts rewrite only `boxOffset` and the displayed instance positions — and
`loadData` resets the accumulated offset to the zero vector.  (In the
source the snapshot and the instance positions are `.clone()`d, so the
in-place writes of `updateParticlePositions` cannot reach the graph; the
value-semantics model reflects that.) -/
theorem shifts_preserve_graph_and_snapshot (g : StructureGraph)
    (ops : List (Axis × ℚ)) :
    (applyShifts ops (loadData g)).data = g ∧
    (applyShifts ops (loadData g)).originalParticlePositions =
        g.particles.map (fun p => p.position) ∧
    (loadData g).boxOffset = ⟨0, 0, 0⟩ :=
  ⟨(applyShifts_frame ops (loadData g)).1,
   (applyShifts_frame ops (loadData g)).2,
   rfl⟩

/-! ## Wrapping mathematics (C7, C8) -/

/-- For a positive box size the wrap helper agrees with the mathematical
floor-modulus: `wrap v L = L * fract (v / L)`.  (The raw `%` truncates
toward zero, so for negative values it lands in `(-L, 0]`; the `res += L`
correction moves it to the floor-modulus representative.) -/
theorem wrap_pos_eq_fract (v L : ℚ) (hL : 0 < L) :
    wrap v L = some (L * Int.fract (v / L)) := by
  have hL0 : L ≠ 0 := ne_of_gt hL
  have hv : v / L * L = v := div_mul_cancel₀ v hL0
  simp only [wrap, jsRem, hL0, if_neg, ite_false, reduceIte]
  congr 1
  unfold truncQ
  by_cases hq : 0 ≤ v / L
  · rw [if_pos hq]
    have hres : v - L * ((⌊v / L⌋ : ℤ) : ℚ) = L * Int.fract (v / L) := by
      rw [Int.fract]
      rw [mul_sub, mul_comm L (v / L), hv]
    rw [hres, if_neg]
    push_neg
    exact mul_nonneg hL.le (Int.fract_nonneg _)
  · rw [if_neg hq]
    push_neg at hq
    rcases Int.fract_eq_zero_or_add_one_sub_ceil (v / L) with h0 | hc
    · have hfl : v / L = ((⌊v / L⌋ : ℤ) : ℚ) := by
        have h := Int.floor_add_fract (v / L)
        rw [h0, add_zero] at h
        exact h.symm
      have hceil : ((⌈v / L⌉ : ℤ) : ℚ) = v / L := by
        rw [hfl, Int.ceil_intCast]
      have hres : v - L * ((⌈v / L⌉ : ℤ) : ℚ) = 0 := by
        rw [hceil, mul_comm L (v / L), hv]
        ring
      rw [hres, h0, if_neg (by norm_num)]
      ring
    · have h1 : ((⌈v / L⌉ : ℤ) : ℚ) < v / L + 1 := Int.ceil_lt_add_one _
      have hfpos : 0 < Int.fract (v / L) := by
        rw [hc]
        linarith
      have hf1 : Int.fract (v / L) < 1 := Int.fract_lt_one _
      have hres : v - L * ((⌈v / L⌉ : ℤ) : ℚ) = L * (Int.fract (v / L) - 1) := by
        have hLq : L * (v / L) = v := by rw [mul_comm]; exact hv
        have hring : L * (v / L + 1 - ((⌈v / L⌉ : ℤ) : ℚ) - 1) =
            L * (v / L) - L * ((⌈v / L⌉ : ℤ) : ℚ) := by ring
        rw [hc, hring, hLq]
      rw [hres, if_pos]
      · ring
      · have : Int.fract (v / L) - 1 < 0 := by linarith
        exact mul_neg_of_pos_of_neg hL this

/-- Wrapping is invariant under adding one full box length (positive box
size). -/
theorem wrap_add_self (v L : ℚ) (hL : 0 < L) : wrap (v + L) L = wrap v L := by
  rw [wrap_pos_eq_fract _ _ hL, wrap_pos_eq_fract _ _ hL]
  have h : (v + L) / L = v / L + 1 := by
    rw [add_div, div_self (ne_of_gt hL)]
  rw [h, Int.fract_add_one]

/-! ## C7 -/

/-- C7: for every `v` and every box size `L > 0` the wrap helper returns a
value (no `NaN`) in `[0, L)`: the truncated remainder, when negative, is
corrected by adding `L` exactly once. -/
theorem wrap_mem_box (v L : ℚ) (hL : 0 < L) :
    ∃ r, wrap v L = some r ∧ 0 ≤ r ∧ r < L := by
  refine ⟨L * Int.fract (v / L), wrap_pos_eq_fract v L hL,
    mul_nonneg hL.le (Int.fract_nonneg _), ?_⟩
  calc L * Int.fract (v / L) < L * 1 := by
        exact mul_lt_mul_of_pos_left (Int.fract_lt_one _) hL
    _ = L := mul_one L

/-- Witness for C7 at `v = -7`, `L = 3` (the wrapped value is `2`). -/
theorem wrap_mem_box_witness : ∃ r, wrap (-7) 3 = some r ∧ 0 ≤ r ∧ r < 3 :=
  wrap_mem_box (-7) 3 (by norm_num)

/-! ## C8 -/

/-- C8 (amended): once the displayed positions are the recomputed wrapped
view — i.e. after any prior shift — a further `shift(x, L_x)` by exactly
one full box length `L_x = box.x > 0` leaves every displayed particle
position unchanged: the offset grows by `L_x` and wrapping is invariant
under adding a full box length. -/
theorem shift_full_box_after_shift (st : RenderState) (a : Axis) (q : ℚ)
    (hx : 0 < st.data.metadata.box.x) :
    (shiftParticles (shiftParticles st a q) Axis.x st.data.metadata.box.x).displayed =
      (shiftParticles st a q).displayed := by
  simp only [shiftParticles, updateParticlePositions, bumpOffset]
  congr 1
  funext originalPos
  congr 1
  rw [← add_assoc]
  exact wrap_add_self _ _ hx

/-- Structure graph for the C8 counterexample and witness: one particle
(single strand) whose canonical position `(-1, 2, 3)` lies outside the
`10 × 10 × 10` box on the x axis. -/
def graphOutOfBox : StructureGraph :=
  { particles := [{ index := 0, type := 0, strand := 0, radius := 1, mass := 1,
                    patches := [], connections := [],
                    position := ⟨-1, 2, 3⟩, baseVector := vzero,
                    normalVector := vzero, velocity := vzero,
                    angularVelocity := vzero }]
    bonds := []
    metadata := { timestep := 0, box := ⟨10, 10, 10⟩, energy := ⟨0, 0, 0⟩,
                  numStrands := 1 } }

/-- Counterexample to C8 as stated: immediately after `loadData` the
displayed positions are the raw canonical clones (no wrapping is applied
at load time), so the very first `shift(x, L_x)` — here `L_x = 10 > 0` —
moves the displayed x of the out-of-box particle from `-1` to
`wrap(-1 + 10, 10) = 9`, a change of a full box length, far beyond any
float tolerance. -/
theorem shift_full_box_after_load_changes_display :
    graphOutOfBox.metadata.box.x = 10 ∧ (0 : ℚ) < 10 ∧
    (shiftParticles (loadData graphOutOfBox) Axis.x 10).displayed ≠
      (loadData graphOutOfBox).displayed := by
  refine ⟨rfl, by decide, ?_⟩
  have hload : (loadData graphOutOfBox).displayed = [⟨some (-1), some 2, some 3⟩] := rfl
  have h9 : wrap (-1 + (0 + 10) : ℚ) 10 = some 9 := by
    have ht : truncQ ((9 : ℚ) / 10) = 0 := by norm_num [truncQ]
    norm_num [wrap, jsRem, ht]
  have h2 : wrap (2 + 0 : ℚ) 10 = some 2 := by
    have ht : truncQ ((1 : ℚ) / 5) = 0 := by norm_num [truncQ]
    norm_num [wrap, jsRem, ht]
  have h3 : wrap (3 + 0 : ℚ) 10 = some 3 := by
    have ht : truncQ ((3 : ℚ) / 10) = 0 := by norm_num [truncQ]
    norm_num [wrap, jsRem, ht]
  have hshift : (shiftParticles (loadData graphOutOfBox) Axis.x 10).displayed =
      [⟨some 9, some 2, some 3⟩] := by
    simp only [shiftParticles, updateParticlePositions, bumpOffset, loadData,
      graphOutOfBox, List.map]
    rw [h9, h2, h3]
  rw [hload, hshift]
  decide

/-- Witness for the amended C8 at a concrete state: load `graphOutOfBox`,
shift once on the y axis, then shift by the full box length on x. -/
theorem shift_full_box_after_shift_witness :
    (shiftParticles (shiftParticles (loadData graphOutOfBox) Axis.y 1) Axis.x
        (loadData graphOutOfBox).data.metadata.box.x).displayed =
      (shiftParticles (loadData graphOutOfBox) Axis.y 1).displayed :=
  shift_full_box_after_shift (loadData graphOutOfBox) Axis.y 1 (by decide)

/-! ## C6 -/

theorem findHeaderLine_eq_none (ls : List (List Char)) :
    findHeaderLine ls = none ↔ ls.find? significant = none := by
  induction ls with
  | nil => simp [findHeaderLine, List.find?]
  | cons l rest ih =>
    by_cases h : significant l
    · simp [findHeaderLine, List.find?, h]
    · simp only [findHeaderLine, List.find?]
      rw [if_neg h]
      simp only [h, Bool.false_eq_true, if_false, cond_false]
      exact ih

theorem findHeaderLine_of_find? (ls : List (List Char)) (l : List Char) :
    ls.find? significant = some l →
      ∃ rest, findHeaderLine ls = some (l, rest) := by
  induction ls with
  | nil => simp [List.find?]
  | cons h0 rest ih =>
    intro hfind
    by_cases h : significant h0
    · rw [List.find?_cons_of_pos _ h] at hfind
      rw [Option.some_inj] at hfind
      subst hfind
      exact ⟨rest, by simp [findHeaderLine, h]⟩
    · rw [List.find?_cons_of_neg _ h] at hfind
      obtain ⟨r, hr⟩ := ih hfind
      exact ⟨r, by simp [findHeaderLine, h, hr]⟩

/-- C6: `TopologyParser.parse` fails — with the
`Invalid topology file: no header found` error — exactly when the input
has no significant (non-blank, non-comment) line; and when a significant
line exists, the first one becomes the four-number header and the parse
returns a document (the body dispatch is total: malformed rows only yield
`NaN` fields, never an exception). -/
theorem topoParse_error_iff_no_header (content : String) :
    ((jsLines content).find? significant = none →
        topoParse content = .error "Invalid topology file: no header found") ∧
    (∀ l, (jsLines content).find? significant = some l →
        ∃ doc, topoParse content = .ok doc ∧ doc.header = parseTopoHeaderLine l) := by
  constructor
  · intro hnone
    have h := (findHeaderLine_eq_none (jsLines content)).mpr hnone
    unfold topoParse
    rw [h]
  · intro l hl
    obtain ⟨rest, hr⟩ := findHeaderLine_of_find? (jsLines content) l hl
    refine ⟨(rest.foldl topoBodyStep
      { header := parseTopoHeaderLine l
        patches := []
        springs := []
        particles := [] }), ?_, ?_⟩
    · unfold topoParse
      rw [hr]
    · have hframe : ∀ (ls : List (List Char)) (doc : TopologyDocument),
          (ls.foldl topoBodyStep doc).header = doc.header := by
        intro ls
        induction ls with
        | nil => exact fun doc => rfl
        | cons x xs ih =>
          intro doc
          rw [List.foldl_cons, ih]
          unfold topoBodyStep
          dsimp only
          split
          · split
            · rfl
            · split
              · rfl
              · rfl
          · rfl
      exact hframe rest _

/-- Witness for C6 on a file whose first two lines are a comment and the
header `1 2 3 4`. -/
theorem topoParse_error_iff_no_header_witness :
    ∃ doc, topoParse "# c\n1 2 3 4" = .ok doc ∧
      doc.header = parseTopoHeaderLine "1 2 3 4".data :=
  (topoParse_error_iff_no_header "# c\n1 2 3 4").2 "1 2 3 4".data (by decide)

/-! ## C4 -/

/-- One step of the bond loop, abstracted: append the candidate bond
unless a bond matching its unordered pair is already present. -/
def dedupStep (bonds : List Bond) (b : Bond) : List Bond :=
  if (bonds.find? (fun x => sameUnorderedEdge x b)).isNone then bonds ++ [b] else bonds

/-- The bond a connection declared by particle `pIdx` creates: `from` is
the declaring particle, `to` the peer, `spring` the template resolved by
id (`null` when unresolved). -/
def connBond (topology : TopologyDocument) (pIdx : ℤ) (connection : Connection) : Bond :=
  { fromIdx := pIdx
    toIdx := connection.particleIndex
    spring := topology.springs.find? (fun s => s.id == connection.springIndex) }

/-- The declaration sequence of the spec's ordering words: particles in
index order, connections in declaration order, each connection passing the
`peerIndex < count` guard contributing the bond it would create.  This is
the refinement reference against which the loop of `combineBonds` is
compared. -/
def declaredBonds (topology : TopologyDocument)
    (configuration : ConfigurationDocument) : List Bond :=
  (mergedParticles topology configuration).flatMap (fun particle =>
    particle.connections.filterMap (fun connection =>
      if connection.particleIndex <
          (((mergedParticles topology configuration).length : ℕ) : ℤ) then
        some (connBond topology (particle.index : ℤ) connection)
      else none))

theorem inner_fold_eq (topology : TopologyDocument) (count pIdx : ℤ)
    (conns : List Connection) :
    ∀ acc : List Bond,
      conns.foldl (fun bonds connection =>
        let existingBond := bonds.find? (fun b =>
          (b.fromIdx == pIdx && b.toIdx == connection.particleIndex) ||
          (b.fromIdx == connection.particleIndex && b.toIdx == pIdx))
        if existingBond.isNone && connection.particleIndex < count then
          bonds ++ [connBond topology pIdx connection]
        else bonds) acc =
      (conns.filterMap (fun connection =>
        if connection.particleIndex < count then
          some (connBond topology pIdx connection)
        else none)).foldl dedupStep acc := by
  induction conns with
  | nil => intro acc; rfl
  | cons c cs ih =>
    intro acc
    rw [List.foldl_cons, List.filterMap_cons]
    by_cases hg : c.particleIndex < count
    · rw [if_pos hg]
      dsimp only
      simp only [hg, decide_True, Bool.and_true]
      exact ih _
    · rw [if_neg hg]
      dsimp only
      simp only [hg, decide_False, Bool.and_false, Bool.false_eq_true, if_false]
      exact ih _

theorem outer_fold_eq (topology : TopologyDocument) (count : ℤ)
    (ps : List Particle) :
    ∀ acc : List Bond,
      ps.foldl (fun bonds particle =>
        particle.connections.foldl (fun bonds connection =>
          let existingBond := bonds.find? (fun b =>
            (b.fromIdx == (particle.index : ℤ) && b.toIdx == connection.particleIndex) ||
            (b.fromIdx == connection.particleIndex && b.toIdx == (particle.index : ℤ)))
          if existingBond.isNone && connection.particleIndex < count then
            bonds ++ [connBond topology (particle.index : ℤ) connection]
          else bonds) bonds) acc =
      (ps.flatMap (fun particle =>
        particle.connections.filterMap (fun connection =>
          if connection.particleIndex < count then
            some (connBond topology (particle.index : ℤ) connection)
          else none))).foldl dedupStep acc := by
  induction ps with
  | nil => intro acc; rfl
  | cons p ps ih =>
    intro acc
    rw [List.foldl_cons, List.flatMap_cons, List.foldl_append]
    dsimp only
    rw [inner_fold_eq topology count (p.index : ℤ) p.connections acc]
    exact ih _

/-- The source's nested dedup loop equals the fold of `dedupStep` over the
guarded declaration sequence. -/
theorem combineBonds_eq_dedup_fold (topology : TopologyDocument)
    (particles : List Particle) :
    combineBonds topology particles =
      (particles.flatMap (fun particle =>
        particle.connections.filterMap (fun connection =>
          if connection.particleIndex < ((particles.length : ℕ) : ℤ) then
            some (connBond topology (particle.index : ℤ) connection)
          else none))).foldl dedupStep [] :=
  outer_fold_eq topology ((particles.length : ℕ) : ℤ) particles []

theorem dedup_fold_invariant :
    ∀ (l past acc : List Bond),
      acc.Pairwise (fun b1 b2 => edgeKey b1 ≠ edgeKey b2) →
      (∀ b ∈ acc, past.find? (fun d => sameUnorderedEdge d b) = some b) →
      acc.Sublist past →
      (∀ d ∈ past, ∃ b ∈ acc, edgeKey b = edgeKey d) →
      ((l.foldl dedupStep acc).Pairwise (fun b1 b2 => edgeKey b1 ≠ edgeKey b2) ∧
        (∀ b ∈ l.foldl dedupStep acc,
          (past ++ l).find? (fun d => sameUnorderedEdge d b) = some b) ∧
        (l.foldl dedupStep acc).Sublist (past ++ l) ∧
        (∀ d ∈ past ++ l, ∃ b ∈ l.foldl dedupStep acc, edgeKey b = edgeKey d)) := by
  intro l
  induction l with
  | nil =>
    intro past acc h1 h2 h3 h4
    simpa using ⟨h1, h2, h3, h4⟩
  | cons b rest ih =>
    intro past acc h1 h2 h3 h4
    rw [List.foldl_cons]
    have hassoc : past ++ b :: rest = (past ++ [b]) ++ rest := by simp
    rw [hassoc]
    cases hExists : acc.find? (fun x => sameUnorderedEdge x b) with
    | some x =>
      have hstep : dedupStep acc b = acc := by simp [dedupStep, hExists]
      rw [hstep]
      apply ih (past ++ [b]) acc h1
      · intro b' hb'
        simp [List.find?_append, h2 b' hb']
      · exact h3.trans (List.sublist_append_left past [b])
      · intro d hd
        rw [List.mem_append] at hd
        rcases hd with hd | hd
        · exact h4 d hd
        · rw [List.mem_singleton] at hd
          subst hd
          refine ⟨x, List.mem_of_find?_eq_some hExists, ?_⟩
          have hp := List.find?_some hExists
          exact (sameUnorderedEdge_iff_key x d).mp (by simpa using hp)
    | none =>
      have hstep : dedupStep acc b = acc ++ [b] := by simp [dedupStep, hExists]
      rw [hstep]
      have hnotin : ∀ x ∈ acc, sameUnorderedEdge x b = false := by
        intro x hx
        have h := List.find?_eq_none.mp hExists x hx
        simpa using h
      apply ih (past ++ [b]) (acc ++ [b])
      · rw [List.pairwise_append]
        refine ⟨h1, List.pairwise_singleton _ _, ?_⟩
        intro x hx y hy
        rw [List.mem_singleton] at hy
        subst hy
        intro hkey
        have hcontr := (sameUnorderedEdge_iff_key x y).mpr hkey
        rw [hnotin x hx] at hcontr
        exact absurd hcontr (by simp)
      · intro b' hb'
        rw [List.mem_append] at hb'
        rcases hb' with hb' | hb'
        · simp [List.find?_append, h2 b' hb']
        · rw [List.mem_singleton] at hb'
          subst hb'
          have hpast : past.find? (fun d => sameUnorderedEdge d b') = none := by
            rw [List.find?_eq_none]
            intro d hd hmatch
            obtain ⟨x, hxacc, hxkey⟩ := h4 d hd
            have hkey : edgeKey d = edgeKey b' :=
              (sameUnorderedEdge_iff_key d b').mp (by simpa using hmatch)
            have hmx : sameUnorderedEdge x b' = true :=
              (sameUnorderedEdge_iff_key x b').mpr (hxkey.trans hkey)
            rw [hnotin x hxacc] at hmx
            exact absurd hmx (by simp)
          rw [List.find?_append, hpast]
          simp [List.find?, sameUnorderedEdge_self]
      · exact h3.append (List.Sublist.refl [b])
      · intro d hd
        rw [List.mem_append] at hd
        rcases hd with hd | hd
        · obtain ⟨x, hx, hk⟩ := h4 d hd
          exact ⟨x, List.mem_append_left _ hx, hk⟩
        · rw [List.mem_singleton] at hd
          subst hd
          exact ⟨d, List.mem_append_right _ (List.mem_singleton_self _), rfl⟩

/-- C4: the bond list of `combine` (i) contains at most one bond per
unordered endpoint pair, (ii) each surviving bond literally equals the
FIRST entry of the declaration sequence matching its unordered pair — so
`from`/`to` (and the spring) retain the orientation of the
first-discovered declaring connection — and (iii)/(iv) it is a sublist of
the declaration sequence covering every declared pair, i.e. it is ordered
by first discovery over particles in index order, connections in
declaration order. -/
theorem combine_bonds_first_discovery (topology : TopologyDocument)
    (configuration : ConfigurationDocument) :
    ((combine topology configuration).bonds).Pairwise
        (fun b1 b2 => edgeKey b1 ≠ edgeKey b2) ∧
    (∀ b ∈ (combine topology configuration).bonds,
      (declaredBonds topology configuration).find?
          (fun d => sameUnorderedEdge d b) = some b) ∧
    ((combine topology configuration).bonds).Sublist
        (declaredBonds topology configuration) ∧
    (∀ d ∈ declaredBonds topology configuration,
      ∃ b ∈ (combine topology configuration).bonds, edgeKey b = edgeKey d) := by
  have hb : (combine topology configuration).bonds =
      (declaredBonds topology configuration).foldl dedupStep [] :=
    combineBonds_eq_dedup_fold topology (mergedParticles topology configuration)
  have hinv := dedup_fold_invariant (declaredBonds topology configuration) [] []
    List.Pairwise.nil (by simp) (List.Sublist.refl []) (by simp)
  obtain ⟨p1, p2, p3, p4⟩ := hinv
  rw [hb]
  refine ⟨p1, ?_, ?_, ?_⟩
  · simpa using p2
  · simpa using p3
  · simpa using p4

/-- Topology for the C4 witness: two particles, each declaring the same
undirected pair `{0, 1}` (first as `(1, 0)` from particle 0, then as
`(0, 5)` from particle 1 — only the first survives). -/
def topoTwoConnected : TopologyDocument :=
  { header := ⟨2, 1, 1, 1⟩
    patches := []
    springs := []
    particles := [{ index := 0, type := 0, strand := 0, radius := 1, mass := 1,
                    patches := [], connections := [⟨1, 0⟩] },
                  { index := 1, type := 0, strand := 0, radius := 1, mass := 1,
                    patches := [], connections := [⟨0, 5⟩] }] }

/-- Configuration for the C4 witness: two all-zero nucleotides. -/
def confTwoNuc : ConfigurationDocument :=
  { timestep := 0, box := ⟨10, 10, 10⟩, energy := ⟨0, 0, 0⟩,
    nucleotides := [nucZero 0, nucZero 1] }

/-- Witness for C4: in the two-particle example the surviving bond
`{from: 0, to: 1}` is the first matching entry of the declaration
sequence. -/
theorem combine_bonds_first_discovery_witness :
    (declaredBonds topoTwoConnected confTwoNuc).find?
        (fun d => sameUnorderedEdge d { fromIdx := 0, toIdx := 1, spring := none }) =
      some { fromIdx := 0, toIdx := 1, spring := none } :=
  (combine_bonds_first_discovery topoTwoConnected confTwoNuc).2.1
    { fromIdx := 0, toIdx := 1, spring := none } (by decide)
